import Mathlib

set_option maxRecDepth 8000

/-!
Verification development for the feedback-copilot repository: a shallow
embedding of the retrieval-fusion-and-grounded-generation pipeline
(anonymizer, RRF fusion engine, relevance filter, answer composer) and of
the dashboard rendering arithmetic, with theorems settling the given
claims about the system.

The anonymizer patterns, the RRF score loop, the unanswerable guard and
the pseudonym hash are embedded from the code excerpts present in the
repository (services/pii.py, services/vectorstore.py, services/rag.py);
the surrounding drivers, absent from the repository snapshot, are
modelled from the specification where the doc comments say so.
-/

namespace FeedbackCopilot

/-! ## A small regex engine with Python `re` semantics

The PII patterns of services/pii.py use only: character classes, ordered
alternation, concatenation, greedy bounded or unbounded repetition of a
character class, and the word-boundary assertion.  The engine below
implements exactly these constructs with Python's leftmost-match,
greedy-with-backtracking semantics: `matchEnds` enumerates the candidate
parses in backtracking preference order and the scanner takes the first.
-/

/-- Word characters for the boundary assertion: ASCII alphanumerics,
underscore, and the German letters occurring in the patterns (Python's
Unicode-aware `\b`, restricted to the alphabet the patterns and inputs
use). -/
def isWordChar (c : Char) : Bool :=
  c.isAlphanum || c == '_' || c == 'Ä' || c == 'Ö' || c == 'Ü' ||
    c == 'ä' || c == 'ö' || c == 'ü' || c == 'ß'

/-- Regular expression fragments: character class, concatenation, ordered
alternation, greedy repetition of a character class between lo and hi
times (hi = none for unbounded), word boundary, empty. -/
inductive RE where
  | cls (p : Char → Bool)
  | seq (a b : RE)
  | alt (a b : RE)
  | rep (p : Char → Bool) (lo : Nat) (hi : Option Nat)
  | wb
  | eps

/-- Length of the maximal run of characters satisfying p. -/
def runLen (p : Char → Bool) : List Char → Nat
  | [] => 0
  | c :: cs => if p c then runLen p cs + 1 else 0

def isWordOpt : Option Char → Bool
  | none => false
  | some c => isWordChar c

/-- All ways a regex can consume a prefix of the input, in backtracking
preference order (greedy repetitions longest first, alternation left
first).  Each result is (consumed length, last consumed char if any,
remaining input).  The char before the current position is threaded
through for the word-boundary assertion. -/
def matchEnds : RE → Option Char → List Char → List (Nat × Option Char × List Char)
  | .cls _, _, [] => []
  | .cls p, _, c :: cs => if p c then [(1, some c, cs)] else []
  | .seq a b, prev, s =>
    (matchEnds a prev s).flatMap fun r =>
      (matchEnds b r.2.1 r.2.2).map fun r2 => (r.1 + r2.1, r2.2.1, r2.2.2)
  | .alt a b, prev, s => matchEnds a prev s ++ matchEnds b prev s
  | .rep p lo hi, prev, s =>
    let m := runLen p s
    let top := match hi with | none => m | some h => min m h
    if lo ≤ top then
      (List.range (top + 1 - lo)).map fun j =>
        let k := top - j
        (k, if k = 0 then prev else s.get? (k - 1), s.drop k)
    else []
  | .wb, prev, s =>
    if (isWordOpt prev) != (isWordOpt s.head?) then [(0, prev, s)] else []
  | .eps, prev, s => [(0, prev, s)]

/-- Leftmost match: scan positions left to right, at each position take
the first parse in preference order.  Returns (start, length, last char
of the match or the char before it, rest of the input). -/
def findFrom (re : RE) : Option Char → List Char → Nat → Option (Nat × Nat × Option Char × List Char)
  | prev, [], pos => (matchEnds re prev []).head?.map fun r => (pos, r.1, r.2.1, r.2.2)
  | prev, c :: cs, pos =>
    match (matchEnds re prev (c :: cs)).head? with
    | some r => some (pos, r.1, r.2.1, r.2.2)
    | none => findFrom re (some c) cs (pos + 1)

/-- All non-overlapping matches left to right (Python re.finditer):
after a match, scanning resumes at its end.  Fuel bounds the recursion;
it is called with more fuel than there can be matches. -/
def findAllAux (re : RE) : Nat → Option Char → List Char → Nat → List (Nat × Nat)
  | 0, _, _, _ => []
  | fuel + 1, prev, s, pos =>
    match findFrom re prev s pos with
    | none => []
    | some (st, n, pv, rest) =>
      if n = 0 then [] else (st, st + n) :: findAllAux re fuel pv rest (st + n)

/-- All matches of a pattern in a text, as (start, stop) offset pairs. -/
def findAllL (re : RE) (s : List Char) : List (Nat × Nat) :=
  findAllAux re (s.length + 1) none s 0

def chrRE (c : Char) : RE := .cls (fun d => d == c)

def seqs (l : List RE) : RE := l.foldr .seq .eps

def strRE (l : List Char) : RE := seqs (l.map chrRE)

/-! ## The registered PII patterns (services/pii.py)

Embedded from the pattern table in the repository:
  email    r'\b[A-Za-z0-9._%+-]+@[A-Za-z0-9.-]+\.[A-Z|a-z]{2,}\b'
  phone_de r'\b(?:\+49|0049|0)[\s\-]?(?:\d{2,4})[\s\-]?\d{3,8}\b'
  plate_de r'\b[A-ZÄÖÜ]{1,3}[\s\-]?[A-Z]{1,2}[\s\-]?\d{1,4}[EH]?\b'
  vin      r'\b[A-HJ-NPR-Z0-9]{17}\b'
  date     r'\d{1,2}\.\d{1,2}\.\d{2,4}'   (pattern as documented in the repository)
-/

def emailLocalC (c : Char) : Bool :=
  c.isAlpha || c.isDigit || c == '.' || c == '_' || c == '%' || c == '+' || c == '-'

def emailDomainC (c : Char) : Bool :=
  c.isAlpha || c.isDigit || c == '.' || c == '-'

/-- The TLD class is [A-Z|a-z] verbatim, which also admits the pipe. -/
def emailTldC (c : Char) : Bool := c.isAlpha || c == '|'

def digitC (c : Char) : Bool := c.isDigit

/-- The class [\s\-]: whitespace or hyphen. -/
def sepC (c : Char) : Bool :=
  c == ' ' || c == '\t' || c == '\n' || c == '\x0d' || c == '-'

def regionC (c : Char) : Bool :=
  ('A' ≤ c && c ≤ 'Z') || c == 'Ä' || c == 'Ö' || c == 'Ü'

def upperC (c : Char) : Bool := 'A' ≤ c && c ≤ 'Z'

def plateSuffixC (c : Char) : Bool := c == 'E' || c == 'H'

/-- VIN alphabet: digits and uppercase letters excluding I, O, Q. -/
def vinC (c : Char) : Bool :=
  c.isDigit || (('A' ≤ c && c ≤ 'Z') && !(c == 'I' || c == 'O' || c == 'Q'))

def emailRE : RE :=
  seqs [.wb, .rep emailLocalC 1 none, chrRE '@', .rep emailDomainC 1 none,
        chrRE '.', .rep emailTldC 2 none, .wb]

def phoneRE : RE :=
  seqs [.wb,
        .alt (strRE ['+', '4', '9']) (.alt (strRE ['0', '0', '4', '9']) (strRE ['0'])),
        .rep sepC 0 (some 1), .rep digitC 2 (some 4),
        .rep sepC 0 (some 1), .rep digitC 3 (some 8), .wb]

def plateRE : RE :=
  seqs [.wb, .rep regionC 1 (some 3), .rep sepC 0 (some 1),
        .rep upperC 1 (some 2), .rep sepC 0 (some 1),
        .rep digitC 1 (some 4), .rep plateSuffixC 0 (some 1), .wb]

def vinRE : RE := seqs [.wb, .rep vinC 17 (some 17), .wb]

def dateRE : RE :=
  seqs [.rep digitC 1 (some 2), chrRE '.', .rep digitC 1 (some 2),
        chrRE '.', .rep digitC 2 (some 4)]

/-- A registered detector: kind, replacement tag, pattern. -/
structure Pat where
  kind : String
  tag : String
  re : RE

/-- The registered detectors in registration order, with their fixed
replacement tags. -/
def piiPatterns : List Pat :=
  [⟨"email", "[EMAIL]", emailRE⟩,
   ⟨"phone_de", "[TELEFON]", phoneRE⟩,
   ⟨"plate_de", "[KENNZEICHEN]", plateRE⟩,
   ⟨"vin", "[VIN]", vinRE⟩,
   ⟨"date", "[DATUM]", dateRE⟩]

/-- Does any registered PII pattern match anywhere in the text? -/
def hasAnyPIIMatch (s : String) : Bool :=
  piiPatterns.any fun p => (findFrom p.re none s.data 0).isSome

/-! ## The anonymizer

Modelled from the spec: the anonymize driver of services/pii.py is not in
the repository snapshot (only its pattern table is); per the spec, all
detectors run against the original text, overlapping matches are resolved
with the earliest match start winning (ties by registration order as the
specificity order), and all substitutions are assembled against original
offsets into a new string. -/

/-- Matches of all detectors on the original text: (start, stop,
detector index). -/
def allMatches (s : List Char) : List (Nat × Nat × Nat) :=
  piiPatterns.enum.flatMap fun ip =>
    (findAllL ip.2.re s).map fun m => (m.1, m.2, ip.1)

/-- Order candidate matches by start offset, ties by detector index. -/
def matchLE (a b : Nat × Nat × Nat) : Prop :=
  a.1 < b.1 ∨ (a.1 = b.1 ∧ a.2.2 ≤ b.2.2)

instance : DecidableRel matchLE := fun a b =>
  inferInstanceAs (Decidable (_ ∨ _))

/-- Greedy selection of non-overlapping matches from a start-sorted
candidate list: earliest match start wins, later overlapping candidates
are skipped. -/
def selectFrom : Nat → List (Nat × Nat × Nat) → List (Nat × Nat × Nat)
  | _, [] => []
  | lastStop, (st, en, i) :: rest =>
    if lastStop ≤ st then (st, en, i) :: selectFrom en rest
    else selectFrom lastStop rest

def tagOfIdx (i : Nat) : String :=
  ((piiPatterns.get? i).map Pat.tag).getD ""

/-- Apply the accepted substitutions, assembled against original
offsets: pos is the offset of the head of the remaining text. -/
def substApply : List Char → Nat → List (Nat × Nat × Nat) → List Char
  | s, _, [] => s
  | s, pos, (st, en, i) :: rest =>
    s.take (st - pos) ++ (tagOfIdx i).data ++ substApply (s.drop (en - pos)) en rest

def anonymizeL (s : List Char) : List Char :=
  substApply s 0 (selectFrom 0 (List.insertionSort matchLE (allMatches s)))

/-- anonymize(raw_text): replace every selected PII match by its tag. -/
def anonymize (s : String) : String := ⟨anonymizeL s.data⟩

/-- Substring test used to state claims about anonymized output. -/
def isPrefixL : List Char → List Char → Bool
  | [], _ => true
  | _ :: _, [] => false
  | a :: as, b :: bs => a == b && isPrefixL as bs

def containsL (needle : List Char) : List Char → Bool
  | [] => isPrefixL needle []
  | s@(_ :: rest) => isPrefixL needle s || containsL needle rest

/-- containsStr hay sub: sub occurs as a substring of hay. -/
def containsStr (hay sub : String) : Bool := containsL sub.data hay.data

/-! ## The pseudonym hash (services/pii.py `_hash`)

Embedded from the excerpt
    def _hash(self, value: str) -> str:
        return hashlib.sha256(value.encode()).hexdigest()[:16]
as a full SHA-256 implementation over Nat with explicit mod 2^32. -/

def w32 (n : Nat) : Nat := n % 4294967296

def rotr (k x : Nat) : Nat := w32 (x / 2 ^ k + x % 2 ^ k * 2 ^ (32 - k))

def shr (k x : Nat) : Nat := x / 2 ^ k

def bigSigma0 (x : Nat) : Nat := (rotr 2 x ^^^ rotr 13 x) ^^^ rotr 22 x

def bigSigma1 (x : Nat) : Nat := (rotr 6 x ^^^ rotr 11 x) ^^^ rotr 25 x

def smallSigma0 (x : Nat) : Nat := (rotr 7 x ^^^ rotr 18 x) ^^^ shr 3 x

def smallSigma1 (x : Nat) : Nat := (rotr 17 x ^^^ rotr 19 x) ^^^ shr 10 x

def chF (x y z : Nat) : Nat := (x &&& y) ^^^ ((4294967295 - w32 x) &&& z)

def majF (x y z : Nat) : Nat := ((x &&& y) ^^^ (x &&& z)) ^^^ (y &&& z)

/-- The 64 SHA-256 round constants (in decimal). -/
def K256 : List Nat :=
  [1116352408, 1899447441, 3049323471, 3921009573, 961987163,
   1508970993, 2453635748, 2870763221, 3624381080, 310598401,
   607225278, 1426881987, 1925078388, 2162078206, 2614888103,
   3248222580, 3835390401, 4022224774, 264347078, 604807628,
   770255983, 1249150122, 1555081692, 1996064986, 2554220882,
   2821834349, 2952996808, 3210313671, 3336571891, 3584528711,
   113926993, 338241895, 666307205, 773529912, 1294757372,
   1396182291, 1695183700, 1986661051, 2177026350, 2456956037,
   2730485921, 2820302411, 3259730800, 3345764771, 3516065817,
   3600352804, 4094571909, 275423344, 430227734, 506948616,
   659060556, 883997877, 958139571, 1322822218, 1537002063,
   1747873779, 1955562222, 2024104815, 2227730452, 2361852424,
   2428436474, 2756734187, 3204031479, 3329325298]

/-- Working state / hash value: eight 32-bit words. -/
structure H8 where
  a : Nat
  b : Nat
  c : Nat
  d : Nat
  e : Nat
  f : Nat
  g : Nat
  h : Nat

/-- The SHA-256 initial hash value (in decimal). -/
def initH : H8 :=
  ⟨1779033703, 3144134277, 1013904242, 2773480762,
   1359893119, 2600822924, 528734635, 1541459225⟩

/-- UTF-8 encoding of one character (value.encode()). -/
def utf8Bytes (c : Char) : List Nat :=
  let n := c.toNat
  if n < 128 then [n]
  else if n < 2048 then [192 + n / 64, 128 + n % 64]
  else if n < 65536 then [224 + n / 4096, 128 + n / 64 % 64, 128 + n % 64]
  else [240 + n / 262144, 128 + n / 4096 % 64, 128 + n / 64 % 64, 128 + n % 64]

def strBytes (s : String) : List Nat := s.data.flatMap utf8Bytes

/-- k bytes of n, big endian. -/
def beBytes : Nat → Nat → List Nat
  | 0, _ => []
  | k + 1, n => beBytes k (n / 256) ++ [n % 256]

/-- SHA-256 padding: 0x80, zeros to 56 mod 64, 8-byte big-endian bit length. -/
def padBytes (msg : List Nat) : List Nat :=
  msg ++ 128 :: List.replicate ((119 - msg.length % 64) % 64) 0 ++ beBytes 8 (msg.length * 8)

def bytesToWords : List Nat → List Nat
  | b1 :: b2 :: b3 :: b4 :: rest =>
    (((b1 * 256 + b2) * 256 + b3) * 256 + b4) :: bytesToWords rest
  | _ => []

def chunksAux : Nat → List Nat → List (List Nat)
  | 0, _ => []
  | _, [] => []
  | fuel + 1, ws => ws.take 16 :: chunksAux fuel (ws.drop 16)

/-- Extend the message schedule by one word. -/
def extendStep (ws : List Nat) : List Nat :=
  ws ++ [w32 (smallSigma1 (ws.getD (ws.length - 2) 0) + ws.getD (ws.length - 7) 0 +
              smallSigma0 (ws.getD (ws.length - 15) 0) + ws.getD (ws.length - 16) 0)]

def schedule (ws : List Nat) : List Nat := extendStep^[48] ws

def roundStep (s : H8) (kw : Nat × Nat) : H8 :=
  let t1 := w32 (s.h + bigSigma1 s.e + chF s.e s.f s.g + kw.1 + kw.2)
  let t2 := w32 (bigSigma0 s.a + majF s.a s.b s.c)
  ⟨w32 (t1 + t2), s.a, s.b, s.c, w32 (s.d + t1), s.e, s.f, s.g⟩

def compressChunk (h0 : H8) (chunk : List Nat) : H8 :=
  let s := (K256.zip (schedule chunk)).foldl roundStep h0
  ⟨w32 (h0.a + s.a), w32 (h0.b + s.b), w32 (h0.c + s.c), w32 (h0.d + s.d),
   w32 (h0.e + s.e), w32 (h0.f + s.f), w32 (h0.g + s.g), w32 (h0.h + s.h)⟩

def sha256H (s : String) : H8 :=
  let ws := bytesToWords (padBytes (strBytes s))
  (chunksAux ws.length ws).foldl compressChunk initH

def sha256Words (s : String) : List Nat :=
  let st := sha256H s
  [st.a, st.b, st.c, st.d, st.e, st.f, st.g, st.h]

def hexDigit (n : Nat) : Char :=
  if n < 10 then Char.ofNat (48 + n) else Char.ofNat (87 + n)

def hexOfWord (w : Nat) : List Char :=
  [hexDigit (w / 268435456 % 16), hexDigit (w / 16777216 % 16),
   hexDigit (w / 1048576 % 16), hexDigit (w / 65536 % 16),
   hexDigit (w / 4096 % 16), hexDigit (w / 256 % 16),
   hexDigit (w / 16 % 16), hexDigit (w % 16)]

/-- hashlib.sha256(value.encode()).hexdigest() as a list of hex chars. -/
def sha256hexL (s : String) : List Char := (sha256Words s).flatMap hexOfWord

def sha256hex (s : String) : String := ⟨sha256hexL s⟩

/-- services/pii.py `_hash`: the hex digest truncated to 16 characters. -/
def piiHash (v : String) : String := ⟨(sha256hexL v).take 16⟩

inductive PIIKind where
  | email | phone | plate | vin | date | person
deriving DecidableEq

/-- PIIMatch record of the data model. -/
structure PIIMatch where
  kind : PIIKind
  matched_start : Nat
  matched_stop : Nat
  original_value : String
  replacement_token : String

/-- The pseudonym recorded for a match is the hash of the exact matched
original value. -/
def pseudonymOf (m : PIIMatch) : String := piiHash m.original_value

/-! ## The fusion engine (services/vectorstore.py)

The reciprocal-rank-fusion score is embedded from the excerpt
    rrf_score = 0
    if doc_id in vector_rankings: rrf_score += 1 / (60 + rank)
    if doc_id in bm25_rankings:   rrf_score += 1 / (60 + rank)
Modelled from the spec: the surrounding driver (candidate enumeration and
the descending sort with ties broken by higher raw lexical score then by
lexicographically smaller document_id) is not in the repository snapshot.
Ranked input lists are (document_id, raw method score) pairs in rank
order; ranks are 1-based positions. -/

def lexIds (l : List (String × ℚ)) : List String := l.map Prod.fst

/-- 1-based rank of a document in a ranked id list (first occurrence). -/
def rankIn : List String → String → Option Nat
  | [], _ => none
  | x :: xs, d => if x = d then some 1 else (rankIn xs d).map (· + 1)

/-- Reciprocal-rank contribution of one method: 1/(60 + rank) when the
method's list contains the document, otherwise no term. -/
def rrfTerm : Option Nat → ℚ
  | none => 0
  | some r => 1 / (60 + (r : ℚ))

def fusedScoreOf (lex sem : List (String × ℚ)) (d : String) : ℚ :=
  rrfTerm (rankIn (lexIds lex) d) + rrfTerm (rankIn (lexIds sem) d)

/-- Raw lexical score of a document (0 when absent), used as the first
tie-break key. -/
def rawLexScore (lex : List (String × ℚ)) (d : String) : ℚ :=
  ((lex.find? fun p => p.1 == d).map Prod.snd).getD 0

structure FusedCandidate where
  document_id : String
  fused_score : ℚ
  fromLex : Bool
  fromSem : Bool
deriving DecidableEq

/-- Output order: descending fused_score, ties by higher raw lexical
score, then by lexicographically smaller document_id. -/
def candLE (lex sem : List (String × ℚ)) (x y : String) : Prop :=
  fusedScoreOf lex sem y < fusedScoreOf lex sem x ∨
    (fusedScoreOf lex sem x = fusedScoreOf lex sem y ∧
      (rawLexScore lex y < rawLexScore lex x ∨
        (rawLexScore lex x = rawLexScore lex y ∧ x ≤ y)))

instance (lex sem : List (String × ℚ)) : DecidableRel (candLE lex sem) :=
  fun x y => by unfold candLE; infer_instance

instance (lex sem : List (String × ℚ)) : IsTotal String (candLE lex sem) := by
  constructor
  intro x y
  rcases lt_trichotomy (fusedScoreOf lex sem x) (fusedScoreOf lex sem y) with h | h | h
  · exact Or.inr (Or.inl h)
  · rcases lt_trichotomy (rawLexScore lex x) (rawLexScore lex y) with h2 | h2 | h2
    · exact Or.inr (Or.inr ⟨h.symm, Or.inl h2⟩)
    · rcases le_total x y with h3 | h3
      · exact Or.inl (Or.inr ⟨h, Or.inr ⟨h2, h3⟩⟩)
      · exact Or.inr (Or.inr ⟨h.symm, Or.inr ⟨h2.symm, h3⟩⟩)
    · exact Or.inl (Or.inr ⟨h, Or.inl h2⟩)
  · exact Or.inl (Or.inl h)

instance (lex sem : List (String × ℚ)) : IsTrans String (candLE lex sem) := by
  constructor
  intro x y z hxy hyz
  rcases hxy with h1 | ⟨e1, h1⟩ <;> rcases hyz with h2 | ⟨e2, h2⟩
  · exact Or.inl (h2.trans h1)
  · exact Or.inl (e2 ▸ h1)
  · exact Or.inl (h2.trans_eq e1.symm)
  · refine Or.inr ⟨e1.trans e2, ?_⟩
    rcases h1 with r1 | ⟨f1, r1⟩ <;> rcases h2 with r2 | ⟨f2, r2⟩
    · exact Or.inl (r2.trans r1)
    · exact Or.inl (f2 ▸ r1)
    · exact Or.inl (r2.trans_eq f1.symm)
    · exact Or.inr ⟨f1.trans f2, r1.trans r2⟩

instance (lex sem : List (String × ℚ)) : IsAntisymm String (candLE lex sem) := by
  constructor
  intro x y hxy hyx
  rcases hxy with h1 | ⟨e1, h1⟩ <;> rcases hyx with h2 | ⟨e2, h2⟩
  · exact absurd h1 (lt_asymm h2)
  · exact absurd (e2 ▸ h1) (lt_irrefl _)
  · exact absurd (e1 ▸ h2) (lt_irrefl _)
  · rcases h1 with r1 | ⟨f1, r1⟩ <;> rcases h2 with r2 | ⟨f2, r2⟩
    · exact absurd r1 (lt_asymm r2)
    · exact absurd (f2 ▸ r1) (lt_irrefl _)
    · exact absurd (f1 ▸ r2) (lt_irrefl _)
    · exact le_antisymm r1 r2

def mkCand (lex sem : List (String × ℚ)) (d : String) : FusedCandidate :=
  ⟨d, fusedScoreOf lex sem d, (rankIn (lexIds lex) d).isSome, (rankIn (lexIds sem) d).isSome⟩

/-- Fusion with an explicit candidate enumeration (the iteration order of
the candidate set). -/
def fuseOn (lex sem : List (String × ℚ)) (cands : List String) : List FusedCandidate :=
  (List.insertionSort (candLE lex sem) cands).map (mkCand lex sem)

/-- fuse(lexical_ranked, semantic_ranked): every distinct document of
either list, scored by RRF and sorted. -/
def fuse (lex sem : List (String × ℚ)) : List FusedCandidate :=
  fuseOn lex sem ((lexIds lex ++ lexIds sem).dedup)

/-! ## The relevance filter

Modelled from the spec: drops every candidate whose fused_score is below
min_score, truncates the remainder to max_results; an empty result is a
legitimate outcome. -/

structure EvidenceItem where
  document_id : String
  text_snippet : String
  fused_score : ℚ
deriving DecidableEq

def filterEvidence (cands : List EvidenceItem) (minScore : ℚ) (maxResults : Nat) :
    List EvidenceItem :=
  (cands.filter fun e => minScore ≤ e.fused_score).take maxResults

/-! ## The answer composer (services/rag.py)

The unanswerable guard is embedded from the excerpt
    if not sources:
        return {"answer": "Zu dieser Frage liegen keine Informationen vor.",
                "answerable": False}
Modelled from the spec: the rest of the composer (prompt construction
with [Q1], [Q2], ... citation markers, the single generation call, the
refusal-phrase check and the citation-required guardrail) is not in the
repository snapshot.  The generation service is an explicit function
argument so that calls to it are observable; the composer returns the
Answer, the terminal state, and the number of generation calls made. -/

structure Answer where
  text : String
  answerable : Bool
  citations : List String
deriving DecidableEq

inductive Terminal where
  | answered
  | refusedNoEvidence
  | refusedUncited
deriving DecidableEq

def refusalText : String := "Zu dieser Frage liegen keine Informationen vor."

def markerStr (k : Nat) : String := "[Q" ++ toString k ++ "]"

/-- Prompt: instructions, the question, and each snippet tagged with its
stable citation marker. -/
def buildPrompt (q : String) (ev : List EvidenceItem) : String :=
  "Beantworte nur anhand der Quellen und zitiere jede Aussage. " ++
    "Wenn die Quellen keine Antwort stuetzen, antworte: " ++ refusalText ++ " Frage: " ++ q ++
    String.join (ev.enum.map fun ie => " " ++ markerStr (ie.1 + 1) ++ " " ++ ie.2.text_snippet)

def natOfDigits (ds : List Char) : Nat :=
  ds.foldl (fun n c => n * 10 + (c.toNat - 48)) 0

/-- Extract the citation markers [Qk] actually used in the generated
text, in order of appearance. -/
def extractMarkersAux : Nat → List Char → List Nat
  | 0, _ => []
  | _, [] => []
  | fuel + 1, c :: rest =>
    if c == '[' then
      match rest with
      | 'Q' :: r2 =>
        match r2.span (·.isDigit) with
        | (d :: ds, ']' :: r3) => natOfDigits (d :: ds) :: extractMarkersAux fuel r3
        | _ => extractMarkersAux fuel rest
      | _ => extractMarkersAux fuel rest
    else extractMarkersAux fuel rest

def extractMarkers (g : String) : List Nat :=
  extractMarkersAux g.data.length g.data

/-- Resolve marker numbers back to the evidence items they reference. -/
def resolveCitations (ev : List EvidenceItem) (ks : List Nat) : List String :=
  ks.dedup.filterMap fun k => (ev.get? (k - 1)).map EvidenceItem.document_id

/-- The citation-required guardrail accepts only output that cites at
least one marker and whose every marker resolves to a supplied evidence
item. -/
def citationsValid (n : Nat) (ks : List Nat) : Bool :=
  !ks.isEmpty && ks.all fun k => 1 ≤ k && k ≤ n

def composeAnswer (gen : String → String) (q : String) (ev : List EvidenceItem) :
    Answer × Terminal × Nat :=
  match ev with
  | [] => (⟨refusalText, false, []⟩, .refusedNoEvidence, 0)
  | _ :: _ =>
    let g := gen (buildPrompt q ev)
    if containsStr g refusalText then (⟨refusalText, false, []⟩, .refusedNoEvidence, 1)
    else
      let ks := extractMarkers g
      if citationsValid ev.length ks then
        (⟨g, true, resolveCitations ev ks⟩, .answered, 1)
      else (⟨refusalText, false, []⟩, .refusedUncited, 1)

/-! ## Dashboard source-distribution bars (frontend dashboard pages)

Embedded from the bar width expression
    width: (((stats?.by_source?.voice ?? 0) / (stats?.total || 1)) * 100) + "%"
JavaScript optional chaining on a missing payload or field yields
undefined, `?? 0` turns it into 0, and `x || 1` replaces a falsy total
(0 or undefined, i.e. 0 after coercion) by 1. -/

structure SourceStats where
  voice : Option Nat
  touch : Option Nat
  error : Option Nat
  total : Option Nat

/-- stats?.total || 1 -/
def jsDenom (stats : Option SourceStats) : Nat :=
  let t := (stats.bind SourceStats.total).getD 0
  if t = 0 then 1 else t

/-- Percentage width of one source bar given its count accessor. -/
def barWidthPct (stats : Option SourceStats) (field : SourceStats → Option Nat) : ℚ :=
  (((stats.bind field).getD 0 : ℚ) / (jsDenom stats : ℚ)) * 100

/-! ## Theorems -/

theorem fuse_map_id (lex sem : List (String × ℚ)) :
    (fuse lex sem).map FusedCandidate.document_id =
      List.insertionSort (candLE lex sem) ((lexIds lex ++ lexIds sem).dedup) := by
  unfold fuse fuseOn
  rw [List.map_map]
  have h : FusedCandidate.document_id ∘ mkCand lex sem = id := by
    funext d; rfl
  rw [h, List.map_id]

/-- C4: fuse assigns every distinct document of either input list exactly
one output entry whose fused_score is the sum, over the methods whose
list contains it, of 1/(60 + rank) with 1-based ranks (rrfTerm is 0 for a
method whose list lacks the document, so absence adds no term, and a
document in both lists accumulates both terms); the output is sorted
descending by fused_score. -/
theorem C4_fuse_rrf_score (lex sem : List (String × ℚ)) :
    (∀ fc ∈ fuse lex sem,
        fc.fused_score = rrfTerm (rankIn (lexIds lex) fc.document_id) +
          rrfTerm (rankIn (lexIds sem) fc.document_id)) ∧
    (∀ d, d ∈ (fuse lex sem).map FusedCandidate.document_id ↔
        d ∈ lexIds lex ∨ d ∈ lexIds sem) ∧
    ((fuse lex sem).map FusedCandidate.document_id).Nodup ∧
    (fuse lex sem).Pairwise (fun x y => y.fused_score ≤ x.fused_score) := by
  refine ⟨?_, ?_, ?_, ?_⟩
  · intro fc hfc
    unfold fuse fuseOn at hfc
    rcases List.mem_map.mp hfc with ⟨d, _, rfl⟩
    rfl
  · intro d
    rw [fuse_map_id]
    simp [List.mem_dedup]
  · rw [fuse_map_id]
    exact (List.perm_insertionSort _ _).nodup_iff.mpr (List.nodup_dedup _)
  · unfold fuse fuseOn
    rw [List.pairwise_map]
    refine (List.sorted_insertionSort (candLE lex sem) _).imp ?_
    intro x y hxy
    rcases hxy with h | ⟨h, _⟩
    · exact le_of_lt h
    · exact le_of_eq h.symm

theorem rankIn_pos : ∀ {l : List String} {d : String} {k : Nat},
    rankIn l d = some k → 1 ≤ k := by
  intro l
  induction l with
  | nil => intro d k h; cases h
  | cons x xs ih =>
    intro d k h
    unfold rankIn at h
    by_cases hx : x = d
    · rw [if_pos hx] at h
      cases h
      exact le_refl 1
    · rw [if_neg hx] at h
      rcases Option.map_eq_some'.mp h with ⟨m, _, rfl⟩
      exact Nat.le_add_left 1 m

theorem rrfTerm_cons_le (x : String) (xs : List String) (d : String) (h : x ≠ d) :
    rrfTerm (rankIn (x :: xs) d) ≤ 1 / 62 := by
  unfold rankIn
  rw [if_neg h]
  cases hr : rankIn xs d with
  | none => norm_num [rrfTerm]
  | some m =>
    have hm : 1 ≤ m := rankIn_pos hr
    simp only [Option.map_some', rrfTerm]
    rw [div_le_div_iff (by positivity) (by norm_num)]
    have : (2 : ℚ) ≤ (m : ℚ) + 1 := by
      have : (1 : ℚ) ≤ (m : ℚ) := by exact_mod_cast hm
      linarith
    push_cast
    linarith

/-- C5: a document ranked first in both the lexical and the semantic list
has a strictly greater fused_score than every other document (in
particular than any document ranked first in just one of the lists,
which is how the claim instantiates: its rank in the other list, if
present at all, is at least 2). -/
theorem C5_rank1_both_beats_others (d1 d2 : String) (s1 s2 : ℚ)
    (lex' sem' : List (String × ℚ)) (hne : d1 ≠ d2)
    (hmem : d2 ∈ lexIds ((d1, s1) :: lex') ∨ d2 ∈ lexIds ((d1, s2) :: sem')) :
    fusedScoreOf ((d1, s1) :: lex') ((d1, s2) :: sem') d2 <
      fusedScoreOf ((d1, s1) :: lex') ((d1, s2) :: sem') d1 := by
  have hids1 : lexIds ((d1, s1) :: lex') = d1 :: lexIds lex' := rfl
  have hids2 : lexIds ((d1, s2) :: sem') = d1 :: lexIds sem' := rfl
  have hd1 : fusedScoreOf ((d1, s1) :: lex') ((d1, s2) :: sem') d1 = 1 / 61 + 1 / 61 := by
    unfold fusedScoreOf
    rw [hids1, hids2]
    unfold rankIn
    rw [if_pos rfl]
    norm_num [rrfTerm]
  have hb1 : rrfTerm (rankIn (lexIds ((d1, s1) :: lex')) d2) ≤ 1 / 62 := by
    rw [hids1]; exact rrfTerm_cons_le d1 _ d2 hne
  have hb2 : rrfTerm (rankIn (lexIds ((d1, s2) :: sem')) d2) ≤ 1 / 62 := by
    rw [hids2]; exact rrfTerm_cons_le d1 _ d2 hne
  have : fusedScoreOf ((d1, s1) :: lex') ((d1, s2) :: sem') d2 ≤ 1 / 62 + 1 / 62 := by
    unfold fusedScoreOf
    exact add_le_add hb1 hb2
  rw [hd1]
  calc fusedScoreOf ((d1, s1) :: lex') ((d1, s2) :: sem') d2 ≤ 1 / 62 + 1 / 62 := this
    _ < 1 / 61 + 1 / 61 := by norm_num

theorem C5_rank1_both_beats_others_witness :
    ("D1" : String) ≠ "D2" ∧
    fusedScoreOf [("D1", (5 : ℚ)), ("D2", 3)] [("D1", (7 : ℚ))] "D2" <
      fusedScoreOf [("D1", (5 : ℚ)), ("D2", 3)] [("D1", (7 : ℚ))] "D1" :=
  ⟨by decide,
   C5_rank1_both_beats_others "D1" "D2" 5 7 [("D2", 3)] [] (by decide)
     (Or.inl (by simp [lexIds]))⟩

/-- C6: fusion output is a function of the candidate set, not of its
enumeration order: permuting the candidate enumeration (in particular
swapping equally-scored entries) leaves the output unchanged, because
the comparator (descending fused_score, then higher raw lexical score,
then lexicographically smaller document_id) is a total order on
candidates; the same-input determinism of fuse is the special case of a
trivial permutation. -/
theorem C6_fuse_deterministic (lex sem : List (String × ℚ)) (c1 c2 : List String)
    (hp : c1.Perm c2) : fuseOn lex sem c1 = fuseOn lex sem c2 := by
  unfold fuseOn
  congr 1
  exact List.eq_of_perm_of_sorted
    ((List.perm_insertionSort (candLE lex sem) c1).trans
      (hp.trans (List.perm_insertionSort (candLE lex sem) c2).symm))
    (List.sorted_insertionSort (candLE lex sem) c1)
    (List.sorted_insertionSort (candLE lex sem) c2)

theorem C6_fuse_deterministic_witness :
    fuseOn [("a", (1 : ℚ))] [("b", (1 : ℚ))] ["a", "b"] =
      fuseOn [("a", (1 : ℚ))] [("b", (1 : ℚ))] ["b", "a"] :=
  C6_fuse_deterministic _ _ _ _ (List.Perm.swap "b" "a" [])

/-- C7: the relevance filter keeps no candidate below min_score, returns
at most max_results items, and the empty input (hence an empty result)
is a legitimate value of the total function. -/
theorem C7_filter_threshold_and_cap (cands : List EvidenceItem) (minScore : ℚ)
    (maxResults : Nat) :
    (∀ e ∈ filterEvidence cands minScore maxResults, minScore ≤ e.fused_score) ∧
    (filterEvidence cands minScore maxResults).length ≤ maxResults ∧
    filterEvidence [] minScore maxResults = [] := by
  refine ⟨?_, ?_, by simp [filterEvidence]⟩
  · intro e he
    have hmem := List.mem_of_mem_take he
    have := (List.mem_filter.mp hmem).2
    exact of_decide_eq_true this
  · unfold filterEvidence
    rw [List.length_take]
    exact min_le_left _ _

/-- C2: on an empty evidence set the answer composer short-circuits to
the fixed refusal: for every generation service and every question it
returns answerable = false with an empty citation list and makes zero
calls to the generation service (the result is a constant, so it cannot
depend on the generator). -/
theorem C2_empty_evidence_short_circuit (gen : String → String) (q : String) :
    composeAnswer gen q [] =
      ({ text := refusalText, answerable := false, citations := [] },
        Terminal.refusedNoEvidence, 0) :=
  rfl

theorem mem_of_resolveCitations {ev : List EvidenceItem} {ks : List Nat} {c : String}
    (hc : c ∈ resolveCitations ev ks) : ∃ e ∈ ev, e.document_id = c := by
  unfold resolveCitations at hc
  rcases List.mem_filterMap.mp hc with ⟨k, _, hk⟩
  rcases Option.map_eq_some'.mp hk with ⟨e, hget, rfl⟩
  exact ⟨e, List.get?_mem hget, rfl⟩

/-- C3: citation integrity.  Whenever the composer terminates in
Answered, every citation of the Answer resolves to an evidence item of
the filtered evidence set passed to the query; and generated output that
fails the citation guardrail (no marker, or a marker that does not
resolve) is never returned: the composer substitutes the refusal and
reports the distinct terminal state Refused-UncitedOutput. -/
theorem C3_citation_integrity (gen : String → String) (q : String)
    (ev : List EvidenceItem) :
    (∀ a t n, composeAnswer gen q ev = (a, t, n) → t = Terminal.answered →
      ∀ c ∈ a.citations, ∃ e ∈ ev, e.document_id = c) ∧
    (ev ≠ [] →
      containsStr (gen (buildPrompt q ev)) refusalText = false →
      citationsValid ev.length (extractMarkers (gen (buildPrompt q ev))) = false →
      composeAnswer gen q ev =
        ({ text := refusalText, answerable := false, citations := [] },
          Terminal.refusedUncited, 1)) := by
  constructor
  · intro a t n heq ht c hc
    cases ev with
    | nil =>
      simp only [composeAnswer] at heq
      injection heq with h1 h23
      injection h23 with h2 h3
      subst h2
      exact absurd ht (by decide)
    | cons e0 es =>
      simp only [composeAnswer] at heq
      split at heq
      · injection heq with h1 h23
        injection h23 with h2 h3
        subst h2
        exact absurd ht (by decide)
      · split at heq
        · injection heq with h1 h23
          subst h1
          exact mem_of_resolveCitations hc
        · injection heq with h1 h23
          injection h23 with h2 h3
          subst h2
          exact absurd ht (by decide)
  · intro hne h1 h2
    cases ev with
    | nil => exact absurd rfl hne
    | cons e0 es =>
      simp only [composeAnswer, h1, h2]
      simp

theorem C3_citation_integrity_witness :
    (∃ e ∈ [({ document_id := "D1", text_snippet := "Text", fused_score := 1 } : EvidenceItem)],
        e.document_id = "D1") ∧
    composeAnswer (fun _ => "keine Marker hier") "Frage"
        [{ document_id := "D1", text_snippet := "Text", fused_score := 1 }] =
      ({ text := refusalText, answerable := false, citations := [] },
        Terminal.refusedUncited, 1) := by
  constructor
  · exact (C3_citation_integrity (fun _ => "Ja [Q1]") "Frage"
      [{ document_id := "D1", text_snippet := "Text", fused_score := 1 }]).1
      { text := "Ja [Q1]", answerable := true, citations := ["D1"] }
      Terminal.answered 1 (by decide) rfl "D1" (by decide)
  · exact (C3_citation_integrity (fun _ => "keine Marker hier") "Frage"
      [{ document_id := "D1", text_snippet := "Text", fused_score := 1 }]).2
      (by decide) (by decide) (by decide)

/-- SHA-256 embedding sanity check against the standard test vector. -/
theorem sha256_test_vector : sha256hex "abc" =
    "ba7816bf8f01cfea414140de5dae2223b00361a396177a9cb410ff61f20015ad" := by
  rfl

theorem hexOfWord_length (w : Nat) : (hexOfWord w).length = 8 := rfl

theorem sha256hexL_length (s : String) : (sha256hexL s).length = 64 := by
  unfold sha256hexL sha256Words
  simp [List.flatMap_cons, hexOfWord_length]

/-- C9: the pseudonym of a PIIMatch is the fixed-width truncation of the
one-way digest of the exact matched original value and of nothing else:
any two matches with the same original value (whatever their kind, span
or replacement, i.e. also across runs, there being no salt or state
parameter) receive the identical pseudonym, a string of exactly 16
characters. -/
theorem C9_pseudonym_deterministic (m1 m2 : PIIMatch)
    (h : m1.original_value = m2.original_value) :
    pseudonymOf m1 = pseudonymOf m2 ∧ (pseudonymOf m1).length = 16 := by
  constructor
  · unfold pseudonymOf
    rw [h]
  · show ((sha256hexL m1.original_value).take 16).length = 16
    rw [List.length_take, sha256hexL_length]
    omega

theorem C9_pseudonym_deterministic_witness :
    pseudonymOf ⟨PIIKind.email, 0, 3, "abc", "[EMAIL]"⟩ =
      pseudonymOf ⟨PIIKind.phone, 5, 8, "abc", "[TELEFON]"⟩ ∧
    (pseudonymOf ⟨PIIKind.email, 0, 3, "abc", "[EMAIL]"⟩).length = 16 :=
  C9_pseudonym_deterministic _ _ rfl

/-- The truncated pseudonym of the embedding agrees with
hashlib.sha256(b"abc").hexdigest()[:16]. -/
theorem piiHash_test_vector : piiHash "abc" = "ba7816bf8f01cfea" := by
  rfl

/-- C10: the dashboard bar width divides by (total || 1), so the
denominator is never zero for any stats payload (missing payload,
missing field or zero total included), and the width is 0 when the count
is absent or zero, in particular on an empty corpus. -/
theorem C10_bar_width_total_guard :
    (∀ stats : Option SourceStats, (jsDenom stats : ℚ) ≠ 0) ∧
    (∀ stats : Option SourceStats, ∀ field : SourceStats → Option Nat,
      (stats.bind field).getD 0 = 0 → barWidthPct stats field = 0) ∧
    barWidthPct none SourceStats.voice = 0 ∧
    barWidthPct (some { voice := some 0, touch := some 0, error := some 0, total := some 0 })
      SourceStats.voice = 0 := by
  refine ⟨?_, ?_, by simp [barWidthPct], by simp [barWidthPct]⟩
  · intro stats
    have h : jsDenom stats ≠ 0 := by
      simp only [jsDenom]
      split
      · exact one_ne_zero
      · next ht => exact ht
    exact_mod_cast h
  · intro stats field h
    unfold barWidthPct
    rw [h]
    norm_num

theorem anonymize_of_no_match (s : String) (h : hasAnyPIIMatch s = false) :
    anonymize s = s := by
  rw [hasAnyPIIMatch, List.any_eq_false] at h
  have hnone : ∀ p ∈ piiPatterns, findFrom p.re none s.data 0 = none := fun p hp =>
    Option.not_isSome_iff_eq_none.mp (h p hp)
  have h1 : findFrom emailRE none s.data 0 = none :=
    hnone ⟨"email", "[EMAIL]", emailRE⟩ (by simp [piiPatterns])
  have h2 : findFrom phoneRE none s.data 0 = none :=
    hnone ⟨"phone_de", "[TELEFON]", phoneRE⟩ (by simp [piiPatterns])
  have h3 : findFrom plateRE none s.data 0 = none :=
    hnone ⟨"plate_de", "[KENNZEICHEN]", plateRE⟩ (by simp [piiPatterns])
  have h4 : findFrom vinRE none s.data 0 = none :=
    hnone ⟨"vin", "[VIN]", vinRE⟩ (by simp [piiPatterns])
  have h5 : findFrom dateRE none s.data 0 = none :=
    hnone ⟨"date", "[DATUM]", dateRE⟩ (by simp [piiPatterns])
  have hA : allMatches s.data = [] := by
    simp [allMatches, piiPatterns, List.enum, List.enumFrom, findAllL, findAllAux,
      h1, h2, h3, h4, h5]
  unfold anonymize anonymizeL
  rw [hA]
  rfl

/-- C1 counterexample: the anonymized output of the raw text
"max@x.de01.02.2026" still contains a substring matching the registered
email pattern (the date substitution's bracket creates the word boundary
the email pattern needed), and a second application of anonymize
performs a further substitution, so anonymize is not idempotent on its
own output. -/
theorem C1_counterexample_residual_pii :
    hasAnyPIIMatch (anonymize "max@x.de01.02.2026") = true ∧
    anonymize (anonymize "max@x.de01.02.2026") ≠ anonymize "max@x.de01.02.2026" := by
  constructor
  · rfl
  · decide

/-- C1 amended: replacement tags can abut surviving text so that a
registered pattern matches the anonymized output (and then a second pass
substitutes further); what holds is conditional idempotence: whenever
the anonymized output contains no substring matching a registered PII
pattern, a second application of anonymize produces no further
substitutions. -/
theorem C1_idempotent_on_match_free_output (t : String)
    (h : hasAnyPIIMatch (anonymize t) = false) :
    anonymize (anonymize t) = anonymize t :=
  anonymize_of_no_match (anonymize t) h

theorem C1_idempotent_on_match_free_output_witness :
    hasAnyPIIMatch (anonymize "Kontakt: a@b.cc") = false ∧
    anonymize (anonymize "Kontakt: a@b.cc") = anonymize "Kontakt: a@b.cc" :=
  ⟨rfl, C1_idempotent_on_match_free_output "Kontakt: a@b.cc" rfl⟩

/-- C8: the scenario raw text anonymizes to a text containing the
[EMAIL], [TELEFON] and [KENNZEICHEN] tags and zero occurrences of the
original email, phone number and license plate values. -/
theorem C8_anonymize_scenario :
    anonymize "Kontakt: max.mustermann@vw.de, Tel 0049 151 2345678, B-AB 1234" =
      "Kontakt: [EMAIL], Tel [TELEFON], [KENNZEICHEN]" ∧
    containsStr "Kontakt: [EMAIL], Tel [TELEFON], [KENNZEICHEN]" "[EMAIL]" = true ∧
    containsStr "Kontakt: [EMAIL], Tel [TELEFON], [KENNZEICHEN]" "[TELEFON]" = true ∧
    containsStr "Kontakt: [EMAIL], Tel [TELEFON], [KENNZEICHEN]" "[KENNZEICHEN]" = true ∧
    containsStr "Kontakt: [EMAIL], Tel [TELEFON], [KENNZEICHEN]" "max.mustermann@vw.de" = false ∧
    containsStr "Kontakt: [EMAIL], Tel [TELEFON], [KENNZEICHEN]" "0049 151 2345678" = false ∧
    containsStr "Kontakt: [EMAIL], Tel [TELEFON], [KENNZEICHEN]" "B-AB 1234" = false := by
  exact ⟨by rfl, rfl, rfl, rfl, rfl, rfl, rfl⟩

theorem C10_bar_width_total_guard_witness :
    ((jsDenom (some { voice := some 5, touch := some 0, error := some 0, total := some 0 }) : ℚ) ≠ 0) ∧
    barWidthPct (some { voice := none, touch := some 0, error := some 0, total := some 40 })
      SourceStats.voice = 0 :=
  ⟨C10_bar_width_total_guard.1 _, C10_bar_width_total_guard.2.1 _ _ rfl⟩

end FeedbackCopilot
